import Mathlib

/-!
Verification of the memory-subsystem benchmark (src/speed/memory/memory.rs).

The Rust source is shallowly embedded: the bump-pointer `Arena`, the
`XorShift64` generator, and the arena-facing skeletons of the workloads are
translated into pure Lean functions; `usize` is modelled as `Nat` (the
program never exercises wrap-around on sizes), `u64` values are `Nat`
reduced modulo `2 ^ 64` at each operation that can overflow, and the raw
pointer returned by `allocate` is modelled as the byte offset from the
arena's base.  Rust's `&mut self` methods become functions returning the
updated structure.
-/

/-- Byte-offset handle returned by the arena, standing for
`base_ptr.add(offset)` in the Rust source. -/
abbrev Address := Nat

/-- Model of `struct Arena { buffer: Vec<u8>, used: usize }`. -/
structure Arena where
  buffer : List Nat
  used : Nat
  deriving Repr, DecidableEq

/-- Model of `Arena::new(size)`: a zero-initialised buffer of `size` bytes, cursor 0. -/
def Arena.new (size : Nat) : Arena :=
  { buffer := List.replicate size 0, used := 0 }

/-- Model of `let aligned_size = (size + 7) & !7;` — clearing the low three bits of a
number is subtracting its remainder modulo 8. -/
def alignedSize (size : Nat) : Nat :=
  (size + 7) - (size + 7) % 8

/-- Model of `Arena::allocate`: if `used + aligned_size > buffer.len()` return `None`
(the arena untouched), else return the offset `used` and advance the cursor.
The pair models `(return value, state of *self after the call)`. -/
def Arena.allocate (a : Arena) (size : Nat) : Option Address × Arena :=
  if a.used + alignedSize size > a.buffer.length then
    (none, a)
  else
    (some a.used, { a with used := a.used + alignedSize size })

/-- Model of `Arena::reset`: `self.used = 0`. -/
def Arena.reset (a : Arena) : Arena :=
  { a with used := 0 }

/-- Model of `struct XorShift64 { state: u64 }`. -/
structure XorShift64 where
  state : Nat
  deriving Repr, DecidableEq

/-- Model of `XorShift64::new(seed)`. -/
def XorShift64.new (seed : Nat) : XorShift64 :=
  { state := seed }

/-- One step of `XorShift64::next` on the raw 64-bit state:
`s ^= s << 13; s ^= s >> 7; s ^= s << 17;` with wrapping left shifts. -/
def xorshiftStep (s : Nat) : Nat :=
  let s1 := (s ^^^ (s <<< 13)) % 2 ^ 64
  let s2 := s1 ^^^ (s1 >>> 7)
  (s2 ^^^ (s2 <<< 17)) % 2 ^ 64

/-- Model of `XorShift64::next`: mutates the state and returns the updated value. -/
def XorShift64.next (g : XorShift64) : Nat × XorShift64 :=
  let s := xorshiftStep g.state
  (s, { state := s })

/-- The `n`-th value drawn from a generator (`n = 0` is the first `next()`). -/
def XorShift64.output (g : XorShift64) : Nat → Nat
  | 0 => g.next.1
  | n + 1 => g.next.2.output n

/-- The spec function `round_up(size, 8)`: the least multiple of 8 that
is `≥ size`. -/
def roundUp8 (size : Nat) : Nat :=
  ((size + 7) / 8) * 8

theorem alignedSize_eq_roundUp8 (size : Nat) : alignedSize size = roundUp8 size := by
  have h := Nat.div_add_mod (size + 7) 8
  unfold alignedSize roundUp8
  omega

theorem alignedSize_dvd (size : Nat) : 8 ∣ alignedSize size := by
  rw [alignedSize_eq_roundUp8]
  exact ⟨(size + 7) / 8, (Nat.mul_comm _ _)⟩

theorem alignedSize_pos (size : Nat) (h : 0 < size) : 8 ≤ alignedSize size := by
  have hd := Nat.div_add_mod (size + 7) 8
  have : 1 ≤ (size + 7) / 8 := by
    have : 8 ≤ size + 7 := by omega
    exact (Nat.one_le_div_iff (by omega)).mpr this
  rw [alignedSize_eq_roundUp8]
  unfold roundUp8
  omega

theorem alignedSize_zero : alignedSize 0 = 0 := rfl

/-- C1: `allocate(size)` computes `aligned = round_up(size, 8)`; if
`used + aligned > capacity` it fails with no state change; otherwise it
returns the offset `used` and advances `used` by exactly `aligned`. -/
theorem arena_allocate_spec (a : Arena) (size : Nat) :
    a.allocate size =
      if a.used + roundUp8 size > a.buffer.length then (none, a)
      else (some a.used, { a with used := a.used + roundUp8 size }) := by
  unfold Arena.allocate
  rw [alignedSize_eq_roundUp8]

/-- C2: `next()` applies exactly the transition
`s ^= s<<13; s ^= s>>7; s ^= s<<17` on the 64-bit state and returns the
updated state, and two independent generators built from the same seed
produce bit-identical outputs at every position. -/
theorem xorshift_next_deterministic (seed n : Nat) (g₁ g₂ : XorShift64)
    (h₁ : g₁ = XorShift64.new seed) (h₂ : g₂ = XorShift64.new seed) :
    g₁.next = (xorshiftStep seed, { state := xorshiftStep seed }) ∧
      g₁.output n = g₂.output n := by
  subst h₁; subst h₂
  exact ⟨rfl, rfl⟩

/-- Concrete instance of C2 at seed 42, position 2. -/
theorem xorshift_next_deterministic_witness :
    (XorShift64.new 42).next =
        (xorshiftStep 42, { state := xorshiftStep 42 }) ∧
      (XorShift64.new 42).output 2 = (XorShift64.new 42).output 2 :=
  xorshift_next_deterministic 42 2 _ _ rfl rfl

theorem allocate_some_eq_used (a : Arena) (s : Nat) (p : Address) (a' : Arena)
    (h : a.allocate s = (some p, a')) : p = a.used := by
  unfold Arena.allocate at h
  split at h
  · exact absurd (congrArg Prod.fst h) (by simp)
  · have hp := congrArg Prod.fst h
    simp at hp
    exact hp.symm

/-- C5: the allocation made right after `reset()` returns the same address
as the very first allocation made after construction, whenever both
succeed — both hand out offset 0 of the buffer. -/
theorem arena_reset_first_address (cap s₁ s₂ : Nat) (b : Arena)
    (p q : Address) (a₁ a₂ : Arena)
    (h₁ : (Arena.new cap).allocate s₁ = (some p, a₁))
    (h₂ : b.reset.allocate s₂ = (some q, a₂)) :
    p = q := by
  have hp := allocate_some_eq_used _ _ _ _ h₁
  have hq := allocate_some_eq_used _ _ _ _ h₂
  rw [hp, hq]
  rfl

/-- Concrete instance of C5: capacity 16, both allocations of size 8. -/
theorem arena_reset_first_address_witness :
    ∃ a₁ a₂ : Arena,
      (Arena.new 16).allocate 8 = (some 0, a₁) ∧
      (Arena.new 24).reset.allocate 8 = (some 0, a₂) ∧ (0 : Address) = 0 := by
  refine ⟨{ buffer := List.replicate 16 0, used := 8 },
          { buffer := List.replicate 24 0, used := 8 }, ?_, ?_, ?_⟩
  · decide
  · decide
  · exact arena_reset_first_address 16 8 8 (Arena.new 24) 0 0
      { buffer := List.replicate 16 0, used := 8 }
      { buffer := List.replicate 24 0, used := 8 } (by decide) (by decide)

/-- C6 fails as stated: on a capacity-0 arena, `allocate(0)` has
`aligned = 0`, the guard `0 + 0 > 0` is false, and the call SUCCEEDS,
returning offset 0 — not the failure value. -/
theorem arena_capacity_zero_counterexample :
    ((Arena.new 0).allocate 0).1 = some 0 := by
  decide

/-- C6 amended: on a capacity-0 arena every allocation of a POSITIVE size
fails immediately (a size-0 allocation still succeeds, consuming 0 bytes). -/
theorem arena_capacity_zero_fails (size : Nat) (h : 0 < size) :
    ((Arena.new 0).allocate size).1 = none := by
  have h8 := alignedSize_pos size h
  unfold Arena.allocate
  split
  · rfl
  · simp [Arena.new] at *
    omega

/-- Concrete instance of amended C6 at size 1. -/
theorem arena_capacity_zero_fails_witness :
    0 < 1 ∧ ((Arena.new 0).allocate 1).1 = none :=
  ⟨Nat.one_pos, arena_capacity_zero_fails 1 Nat.one_pos⟩

/-- C10: a failed `allocate` leaves the arena exactly as it was — `used`
and the buffer contents are unchanged. -/
theorem arena_allocate_fail_no_change (a : Arena) (size : Nat)
    (h : (a.allocate size).1 = none) :
    (a.allocate size).2 = a := by
  unfold Arena.allocate at h ⊢
  split
  · rfl
  · rename_i hc
    rw [if_neg hc] at h
    simp at h

/-- Concrete instance of C10: allocating 1 byte from a full capacity-0
arena fails and leaves the arena untouched. -/
theorem arena_allocate_fail_no_change_witness :
    ((Arena.new 0).allocate 1).1 = none ∧
      ((Arena.new 0).allocate 1).2 = Arena.new 0 :=
  ⟨by decide, arena_allocate_fail_no_change (Arena.new 0) 1 (by decide)⟩

/-- A sequence of `allocate` calls with no intervening `reset`: returns the
list of addresses if every call succeeded (`none` on any failure) and the
final arena state. -/
def allocAll (a : Arena) : List Nat → Option (List Address) × Arena
  | [] => (some [], a)
  | s :: ss =>
    let r := a.allocate s
    match r.1 with
    | none => (none, r.2)
    | some p =>
      let rest := allocAll r.2 ss
      (rest.1.map (fun ps => p :: ps), rest.2)

/-- The regions `(offset, aligned size)` a fault-free run of `allocAll`
hands out, starting from cursor `u`. -/
def allocRegions (u : Nat) : List Nat → List (Nat × Nat)
  | [] => []
  | s :: ss => (u, alignedSize s) :: allocRegions (u + alignedSize s) ss

theorem allocRegions_le (u : Nat) (sizes : List Nat) :
    ∀ r ∈ allocRegions u sizes, u ≤ r.1 := by
  induction sizes generalizing u with
  | nil => intro r hr; simp [allocRegions] at hr
  | cons s ss ih =>
    intro r hr
    simp only [allocRegions, List.mem_cons] at hr
    rcases hr with hr | hr
    · subst hr; exact Nat.le_refl u
    · exact Nat.le_trans (Nat.le_add_right u (alignedSize s)) (ih _ r hr)

theorem allocRegions_ordered (u : Nat) (sizes : List Nat) :
    List.Pairwise (fun r₁ r₂ : Nat × Nat => r₁.1 + r₁.2 ≤ r₂.1)
      (allocRegions u sizes) := by
  induction sizes generalizing u with
  | nil => exact List.Pairwise.nil
  | cons s ss ih =>
    refine List.Pairwise.cons ?_ (ih _)
    intro r hr
    exact allocRegions_le _ _ r hr

theorem allocRegions_dvd (u : Nat) (sizes : List Nat) (h : 8 ∣ u) :
    ∀ r ∈ allocRegions u sizes, 8 ∣ r.1 := by
  induction sizes generalizing u with
  | nil => intro r hr; simp [allocRegions] at hr
  | cons s ss ih =>
    intro r hr
    simp only [allocRegions, List.mem_cons] at hr
    rcases hr with hr | hr
    · subst hr; exact h
    · exact ih _ (Nat.dvd_add h (alignedSize_dvd s)) r hr

theorem allocRegions_size_lb (u : Nat) (sizes : List Nat)
    (h : ∀ s ∈ sizes, 0 < s) :
    ∀ r ∈ allocRegions u sizes, 8 ≤ r.2 := by
  induction sizes generalizing u with
  | nil => intro r hr; simp [allocRegions] at hr
  | cons s ss ih =>
    intro r hr
    simp only [allocRegions, List.mem_cons] at hr
    rcases hr with hr | hr
    · subst hr
      exact alignedSize_pos s (h s (List.mem_cons_self s ss))
    · exact ih _ (fun x hx => h x (List.mem_cons_of_mem s hx)) r hr

theorem allocAll_ok (sizes : List Nat) : ∀ a : Arena,
    a.used + (sizes.map alignedSize).sum ≤ a.buffer.length →
    allocAll a sizes =
      (some ((allocRegions a.used sizes).map Prod.fst),
       { buffer := a.buffer,
         used := a.used + (sizes.map alignedSize).sum }) := by
  induction sizes with
  | nil => intro a h; simp [allocAll, allocRegions]
  | cons s ss ih =>
    intro a h
    simp only [List.map_cons, List.sum_cons] at h
    have hguard : ¬ (a.used + alignedSize s > a.buffer.length) := by omega
    have ih2 := ih { buffer := a.buffer, used := a.used + alignedSize s }
      (by simp; omega)
    simp only [allocAll, Arena.allocate, if_neg hguard]
    rw [ih2]
    simp [allocRegions, Arena.mk.injEq]
    omega

/-- C3 fails as stated: two successful `allocate(0)` calls on a fresh
arena both return address 0, so the addresses are not strictly increasing
in call order. -/
theorem arena_strict_increase_counterexample :
    (allocAll (Arena.new 16) [0, 0]).1 = some [0, 0] ∧
      ¬ List.Pairwise (fun p q : Nat => p < q) [0, 0] := by
  constructor
  · decide
  · intro h
    exact absurd (List.rel_of_pairwise_cons h (List.mem_singleton_self 0))
      (lt_irrefl 0)

/-- C3 amended: from any arena whose cursor is 8-aligned (as every arena
reachable through the API is), a sequence of `allocate` calls whose aligned
sizes sum to at most the remaining capacity all succeed; the returned
regions are pairwise disjoint, every returned offset is a multiple of 8,
the addresses are non-decreasing in call order, and they are strictly
increasing whenever every requested size is positive (two size-0
allocations return the same address, so unconditional strictness fails). -/
theorem arena_allocation_sequence (a : Arena) (sizes : List Nat)
    (h8 : 8 ∣ a.used)
    (hsum : a.used + (sizes.map alignedSize).sum ≤ a.buffer.length) :
    (allocAll a sizes).1 = some ((allocRegions a.used sizes).map Prod.fst) ∧
    List.Pairwise
      (fun r₁ r₂ : Nat × Nat =>
        ∀ x, ¬ (r₁.1 ≤ x ∧ x < r₁.1 + r₁.2 ∧ r₂.1 ≤ x ∧ x < r₂.1 + r₂.2))
      (allocRegions a.used sizes) ∧
    (∀ p ∈ (allocRegions a.used sizes).map Prod.fst, 8 ∣ p) ∧
    List.Pairwise (fun p q : Nat => p ≤ q)
      ((allocRegions a.used sizes).map Prod.fst) ∧
    ((∀ s ∈ sizes, 0 < s) →
      List.Pairwise (fun p q : Nat => p < q)
        ((allocRegions a.used sizes).map Prod.fst)) := by
  refine ⟨?_, ?_, ?_, ?_, ?_⟩
  · rw [allocAll_ok sizes a hsum]
  · exact (allocRegions_ordered a.used sizes).imp (fun h x => by omega)
  · intro p hp
    rw [List.mem_map] at hp
    obtain ⟨r, hr, rfl⟩ := hp
    exact allocRegions_dvd a.used sizes h8 r hr
  · rw [List.pairwise_map]
    exact (allocRegions_ordered a.used sizes).imp
      (fun h => Nat.le_trans (Nat.le_add_right _ _) h)
  · intro hpos
    rw [List.pairwise_map]
    refine List.Pairwise.imp_of_mem ?_ (allocRegions_ordered a.used sizes)
    intro r₁ r₂ h₁ h₂ hord
    have hsz := allocRegions_size_lb a.used sizes hpos r₁ h₁
    have hlt : r₁.1 < r₁.1 + r₁.2 := by omega
    exact Nat.lt_of_lt_of_le hlt hord

/-- The `for i in 0..n { if let Some(ptr) = arena.allocate(128) ... }` loop
of `memory_pool_test`: performs `n` 128-byte allocations, counting the
calls that took the `None` (failure) branch, and returns the final arena. -/
def allocLoop : Arena → Nat → Nat × Arena
  | a, 0 => (0, a)
  | a, n + 1 =>
    let r := a.allocate 128
    let rest := allocLoop r.2 n
    (match r.1 with
      | some _ => rest.1
      | none => rest.1 + 1,
     rest.2)

/-- The `for _ in 0..10 { ...; arena.reset(); }` batch loop of
`memory_pool_test`: `batches` rounds of `perBatch` 128-byte allocations,
each round followed by `reset()`; returns the total failure count and the
final arena. -/
def batchLoop (perBatch : Nat) : Arena → Nat → Nat × Arena
  | a, 0 => (0, a)
  | a, b + 1 =>
    let r := allocLoop a perBatch
    let rest := batchLoop perBatch r.2.reset b
    (r.1 + rest.1, rest.2)

/-- The arena-facing skeleton of `memory_pool_test(iterations)`: arena of
`iterations * 128 + 1024` bytes, `iterations` allocations of 128 bytes, one
`reset()`, then 10 batches of `iterations / 10` allocations each followed
by `reset()`. Returns how many `allocate` calls failed. -/
def memoryPoolFailures (iterations : Nat) : Nat :=
  let a := Arena.new (iterations * 128 + 1024)
  let r₁ := allocLoop a iterations
  let r₂ := batchLoop (iterations / 10) r₁.2.reset 10
  r₁.1 + r₂.1

theorem allocLoop_ok (n : Nat) : ∀ a : Arena,
    a.used + n * 128 ≤ a.buffer.length →
    allocLoop a n = (0, { buffer := a.buffer, used := a.used + n * 128 }) := by
  induction n with
  | zero => intro a h; simp [allocLoop]
  | succ n ih =>
    intro a h
    have halign : alignedSize 128 = 128 := rfl
    have hguard : ¬ (a.used + 128 > a.buffer.length) := by omega
    have ih2 := ih { buffer := a.buffer, used := a.used + 128 }
      (by simp; omega)
    simp only [allocLoop, Arena.allocate, halign, if_neg hguard]
    rw [ih2]
    simp [Arena.mk.injEq]
    omega

theorem batchLoop_ok (n : Nat) (buf : List Nat) (hn : n * 128 ≤ buf.length) :
    ∀ b : Nat, batchLoop n { buffer := buf, used := 0 } b =
      (0, { buffer := buf, used := 0 }) := by
  intro b
  induction b with
  | zero => rfl
  | succ b ih =>
    have h1 := allocLoop_ok n { buffer := buf, used := 0 } (by simpa using hn)
    simp only [batchLoop, h1, Arena.reset, ih]

/-- C7: in `memory_pool_test`, for every `iterations`, every
`arena.allocate(128)` call succeeds — the failure branch is unreachable,
because the arena holds `iterations * 128 + 1024` bytes, the first phase
allocates `iterations * 128` of them, and each of the 10 churn batches of
`iterations / 10` allocations starts from a fresh `reset()`. -/
theorem memory_pool_no_failure (iterations : Nat) :
    memoryPoolFailures iterations = 0 := by
  have hlen : (Arena.new (iterations * 128 + 1024)).buffer.length =
      iterations * 128 + 1024 := by
    simp [Arena.new]
  have h1 := allocLoop_ok iterations (Arena.new (iterations * 128 + 1024))
    (by rw [hlen]; simp [Arena.new]; try omega)
  have hbatch : iterations / 10 * 128 ≤ iterations * 128 + 1024 := by
    have := Nat.div_le_self iterations 10
    have := Nat.mul_le_mul_right 128 (Nat.div_le_self iterations 10)
    omega
  simp only [memoryPoolFailures, h1]
  have h2 := batchLoop_ok (iterations / 10)
    ((Arena.new (iterations * 128 + 1024)).buffer) (by rw [hlen]; exact hbatch) 10
  simp only [Arena.reset, h2]

/-- Concrete instance of amended C3: fresh arena of 32 bytes, sizes 8 and 3. -/
theorem arena_allocation_sequence_witness :
    (allocAll (Arena.new 32) [8, 3]).1 =
        some ((allocRegions 0 [8, 3]).map Prod.fst) ∧
      List.Pairwise
        (fun r₁ r₂ : Nat × Nat =>
          ∀ x, ¬ (r₁.1 ≤ x ∧ x < r₁.1 + r₁.2 ∧ r₂.1 ≤ x ∧ x < r₂.1 + r₂.2))
        (allocRegions 0 [8, 3]) ∧
      (∀ p ∈ (allocRegions 0 [8, 3]).map Prod.fst, 8 ∣ p) ∧
      List.Pairwise (fun p q : Nat => p ≤ q)
        ((allocRegions 0 [8, 3]).map Prod.fst) ∧
      ((∀ s ∈ [8, 3], 0 < s) →
        List.Pairwise (fun p q : Nat => p < q)
          ((allocRegions 0 [8, 3]).map Prod.fst)) :=
  arena_allocation_sequence (Arena.new 32) [8, 3] (by decide) (by decide)

/-- Contents of `large_array1` of `memory_intensive_test` after the strided
sequential-write phase: a zero buffer of `size` bytes with
`buffer[i] = i & 0xFF` written at every index `i` stepping by 4096
(`for i in (0..size).step_by(4096) { large_array1[i] = (i & 0xFF) as u8 }`). -/
def stridedWriteBuffer (size : Nat) : List Nat :=
  (List.range ((size + 4095) / 4096)).foldl
    (fun b k => b.set (k * 4096) ((k * 4096) % 256))
    (List.replicate size 0)

/-- Model of `dst.copy_from_slice(&src)`: replaces the destination contents with the
source when the lengths match (the Rust call panics otherwise, which never
happens here since both buffers have `size` bytes). -/
def copyFromSlice (dst src : List Nat) : List Nat :=
  if dst.length = src.length then src else dst

/-- Buffer 1 of the bandwidth workload right after the bulk copy. -/
def bandwidthBuffer1 (sizeMb : Nat) : List Nat :=
  stridedWriteBuffer (sizeMb * 1024 * 1024)

/-- Buffer 2 of the bandwidth workload right after the bulk copy
`large_array2.copy_from_slice(&large_array1)`, before the random
read-modify-write phase. -/
def bandwidthBuffer2 (sizeMb : Nat) : List Nat :=
  copyFromSlice (List.replicate (sizeMb * 1024 * 1024) 0) (bandwidthBuffer1 sizeMb)

theorem foldl_set_length (ks : List Nat) :
    ∀ b : List Nat,
      (ks.foldl (fun b k => b.set (k * 4096) ((k * 4096) % 256)) b).length =
        b.length := by
  induction ks with
  | nil => intro b; rfl
  | cons k ks ih =>
    intro b
    simp only [List.foldl_cons]
    rw [ih]
    exact List.length_set b _ _

theorem stridedWriteBuffer_length (size : Nat) :
    (stridedWriteBuffer size).length = size := by
  unfold stridedWriteBuffer
  rw [foldl_set_length]
  exact List.length_replicate size 0

/-- C8: in the bandwidth workload, immediately after the bulk copy phase
and before the random read-modify-write phase, buffer 2 is byte-for-byte
identical to buffer 1: for every index `i`, `buffer2[i] = buffer1[i]`. -/
theorem bandwidth_copy_identical (sizeMb i : Nat) :
    (bandwidthBuffer2 sizeMb)[i]? = (bandwidthBuffer1 sizeMb)[i]? := by
  unfold bandwidthBuffer2 copyFromSlice
  rw [if_pos]
  rw [List.length_replicate, bandwidthBuffer1, stridedWriteBuffer_length]

/-- Rust's `args[1].parse::<usize>()` on a 64-bit target: an optional
leading `+`, then at least one ASCII digit and nothing else, with the
value below `2 ^ 64`; anything else is a parse error. The argument is
modelled as its character list. -/
def parseUsize (s : List Char) : Option Nat :=
  let ds := match s with
    | '+' :: rest => rest
    | _ => s
  if ds ≠ [] ∧ ds.all (fun c => c.isDigit) = true then
    let v := ds.foldl (fun n c => n * 10 + (c.toNat - 48)) 0
    if v < 2 ^ 64 then some v else none
  else none

/-- The scale-factor logic of `main`: returns the `scale_factor` used for
the run and whether the `eprintln!("Invalid scale factor. Using default 1.")`
warning was written to the error stream. `none` models a run with no CLI
argument. -/
def mainScaleFactor (arg : Option (List Char)) : Nat × Bool :=
  match arg with
  | none => (1, false)
  | some s =>
    match parseUsize s with
    | some factor => (if factor > 0 then factor else 1, false)
    | none => (1, true)

/-- C9 fails as stated: the argument `"0"` is a non-positive integer, the
harness falls back to scale factor 1, but NO warning is emitted — the
`Ok(0)` branch silently keeps the default, only the `Err` branch prints. -/
theorem cli_zero_no_warning_counterexample :
    parseUsize ['0'] = some 0 ∧ mainScaleFactor (some ['0']) = (1, false) := by
  constructor
  · decide
  · decide

/-- C9 amended: a non-numeric argument falls back to the default scale
factor 1 WITH a warning on the error stream; a numeric non-positive
argument (i.e. `"0"`) falls back to 1 SILENTLY, with no warning. The run
proceeds normally in both cases. -/
theorem cli_fallback (s : List Char) :
    (parseUsize s = none → mainScaleFactor (some s) = (1, true)) ∧
      (parseUsize s = some 0 → mainScaleFactor (some s) = (1, false)) := by
  constructor <;> intro h <;> simp [mainScaleFactor, h]

/-- Concrete instances of amended C9: `"a"` warns, `"0"` stays silent. -/
theorem cli_fallback_witness :
    mainScaleFactor (some ['a']) = (1, true) ∧
      mainScaleFactor (some ['0']) = (1, false) :=
  ⟨(cli_fallback ['a']).1 (by decide), (cli_fallback ['0']).2 (by decide)⟩

/-- Shared state of `gc_stress_test` while the workers run: for each
spawned thread the number of loop iterations it still has to perform, and
the value of the shared `AtomicUsize` counter. The buffer allocation, fill
and checksum inside an iteration are thread-local and invisible here. -/
structure GcState where
  pending : List Nat
  counter : Nat
  deriving Repr, DecidableEq

/-- One scheduler step: some thread `i` with iterations left performs one
loop iteration, whose only shared effect is the atomic
`counter.fetch_add(1, Ordering::Relaxed)`. The fetch-add is atomic
regardless of its (relaxed) ordering, so each step adds exactly 1. -/
inductive GcStep : GcState → GcState → Prop
  | work (pending : List Nat) (counter i n : Nat)
      (hi : pending[i]? = some (n + 1)) :
      GcStep ⟨pending, counter⟩ ⟨pending.set i n, counter + 1⟩

/-- State of `gc_stress_test(num_threads, iterations_per_thread)` right after
spawning, before any worker has run an iteration. -/
def gcInit (numThreads itersPerThread : Nat) : GcState :=
  ⟨List.replicate numThreads itersPerThread, 0⟩

theorem sum_set_of_getElem (l : List Nat) :
    ∀ i n : Nat, l[i]? = some (n + 1) → (l.set i n).sum + 1 = l.sum := by
  induction l with
  | nil => intro i n h; simp at h
  | cons x xs ih =>
    intro i n h
    cases i with
    | zero =>
      simp only [List.getElem?_cons_zero, Option.some.injEq] at h
      simp [List.set, h]
      omega
    | succ j =>
      simp only [List.getElem?_cons_succ] at h
      have := ih j n h
      simp [List.set]
      omega

theorem gcStep_invariant {s t : GcState} (h : GcStep s t) :
    t.counter + t.pending.sum = s.counter + s.pending.sum := by
  cases h with
  | work pending counter i n hi =>
    have := sum_set_of_getElem pending i n hi
    simp only []
    omega

theorem gc_reach_invariant (numThreads itersPerThread : Nat) (s : GcState)
    (hreach : Relation.ReflTransGen GcStep (gcInit numThreads itersPerThread) s) :
    s.counter + s.pending.sum = numThreads * itersPerThread := by
  induction hreach with
  | refl => simp [gcInit, List.sum_const_nat]
  | tail hab hbc ih =>
    have := gcStep_invariant hbc
    omega

/-- C4: every interleaving of the worker threads that drains all
`numThreads * itersPerThread` iterations — which is the state the harness
observes after `join` — leaves the shared counter at exactly
`numThreads * itersPerThread`: no increment is lost. -/
theorem gc_stress_counter_exact (numThreads itersPerThread : Nat)
    (s : GcState)
    (hreach : Relation.ReflTransGen GcStep (gcInit numThreads itersPerThread) s)
    (hdone : ∀ r ∈ s.pending, r = 0) :
    s.counter = numThreads * itersPerThread := by
  have hinv := gc_reach_invariant numThreads itersPerThread s hreach
  have hzero : s.pending.sum = 0 := List.sum_eq_zero hdone
  omega

/-- Concrete instance of C4: one thread, one iteration, the single
possible schedule; the joined counter reads 1 * 1. -/
theorem gc_stress_counter_exact_witness :
    (⟨[0], 1⟩ : GcState).counter = 1 * 1 :=
  gc_stress_counter_exact 1 1 ⟨[0], 1⟩
    (Relation.ReflTransGen.single (GcStep.work [1] 0 0 0 (by decide)))
    (by decide)

